import Mathlib

/-!
Verification development for the kwp2000-rs repository: a shallow embedding
of the KWP2000 client library (BCB codec, raw frame codec, message/response
typing, security-key derivation, baud encoding, K-line wake-up, and the
download loop of the session client), together with theorems settling the
stated properties of each component.

Machine integers are modelled as `Nat` with explicit `% 2 ^ w` where wrap-around
matters; operations that can panic in Rust (out-of-bounds indexing, `usize`
underflow, inverted slice ranges, `unwrap` of `None`) are modelled in an
`Except` monad with an explicit fault value.  `for` loops are embedded as
structural recursion over the exact list of indices the loop visits
(`for i in a..b` visits `List.range' a (b - a)` in order); `while` loops
carry an explicit step budget that the loop's own progress property makes
sufficient (proved below where it matters).
-/

set_option maxRecDepth 100000
set_option linter.unusedVariables false

deriving instance DecidableEq for Except

namespace Bcb

/-- Runtime faults of the Rust BCB code, modelled explicitly:
`indexOutOfBounds` covers indexing panics, `arithUnderflow` covers unsigned
subtraction overflow (a panic in debug builds and unreachable-by-intent in
release builds), `rangeInverted` covers a slice `&data[a..b]` with `a > b`,
`nonTermination` marks a `while` iteration that leaves the entire loop state
unchanged, which in the deterministic Rust loop repeats forever, and
`fuelExhausted` is the embedding's step budget running out (proved
unreachable for the budget used by `create_bcb_data`). -/
inductive Fault where
  | indexOutOfBounds
  | arithUnderflow
  | rangeInverted
  | nonTermination
  | fuelExhausted
  deriving DecidableEq, Repr

/-- Checked list indexing: Rust `data[i]` panics when `i ≥ data.len()`. -/
def idx (data : List Nat) (i : Nat) : Except Fault Nat :=
  if h : i < data.length then .ok data[i] else .error .indexOutOfBounds

/-- Checked slice `&data[a..b]`: panics when `a > b` or `b > data.len()`. -/
def slice (data : List Nat) (a b : Nat) : Except Fault (List Nat) :=
  if a > b then .error .rangeInverted
  else if b > data.length then .error .indexOutOfBounds
  else .ok ((data.drop a).take (b - a))

/-- Big-endian bytes of a `u16` value (`u16::to_be_bytes`). -/
def beBytes16 (h : Nat) : List Nat := [h / 256 % 256, h % 256]

/-- The inner scan of `next_bcb_block` (`for y in (repeat_start + 1)..max_repeat_index`,
with `ys` the exact list of indices that loop visits): extends a candidate
run of equal bytes, recording `repeat_end := y` at every odd position once
the run is at least `MIN_REPEATS = 4` long (or once a repeat has already
been recorded), and stopping at the first mismatch. -/
def innerScan (data : List Nat) (repeat_start : Nat) (ys : List Nat)
    (found : Bool) (re : Nat) : Except Fault (Bool × Nat) :=
  match ys with
  | [] => pure (found, re)
  | y :: rest => do
    let a ← idx data repeat_start
    let b ← idx data y
    if a == b then
      if y % 2 == 1 && (found || y - repeat_start + 1 ≥ 4) then
        innerScan data repeat_start rest true y
      else
        innerScan data repeat_start rest found re
    else pure (found, re)

/-- The outer scan of `next_bcb_block` (`for x in *current_index..max_index_norepeats`,
with `xs` the exact list of indices that loop visits): looks for the first
adjacent pair of equal bytes that begins a recordable run.  Note the
comparison `data[x] == data[x + 1]` indexes one past `x`: when
`max_index_norepeats = data.len()` the final iteration reads
`data[data.len()]`, an out-of-bounds panic.  The returned
`repeat_start`/`repeat_end` are only consulted by the caller when the `Bool`
is `true`, so the scan returns the triple at its breaking point. -/
def outerScan (data : List Nat) (xs : List Nat) :
    Except Fault (Bool × Nat × Nat) :=
  match xs with
  | [] => pure (false, 0, 0)
  | x :: rest => do
    let a ← idx data x
    let b ← idx data (x + 1)
    if a == b then
      let max_repeat_index := min (x + 0x1000) data.length
      let fr ← innerScan data x (List.range' (x + 1) (max_repeat_index - (x + 1))) false 0
      if fr.1 then pure (true, x, fr.2)
      else outerScan data rest
    else outerScan data rest

/-- One step of the Bosch BCB Type-1 compressor (`next_bcb_block` in
`src/bcb.rs`).  Returns the bytes appended to the output stream together
with the number of uncompressed input bytes consumed.  The literal branch
reproduces the source's slice `&data[*current_index..data_bytes]`, whose end
bound is the block length `data_bytes`, not `current_index + data_bytes`. -/
def next_bcb_block (max_len current_index : Nat) (data : List Nat) :
    Except Fault (List Nat × Nat) := do
  if max_len < 2 then .error .arithUnderflow else
  let max_data_bytes := min (max_len - 2) data.length
  let max_index_norepeats := min (max_len - 2) data.length
  let scan ←
    if max_index_norepeats > current_index + 1 then
      outerScan data
        (List.range' current_index (max_index_norepeats - current_index))
    else pure (false, 0, 0)
  let found_repeat := scan.1
  let repeat_start := scan.2.1
  let repeat_end := scan.2.2
  if found_repeat && repeat_start == current_index then
    let repeated_bytes := repeat_end - repeat_start + 1
    if repeated_bytes > 0 then do
      let header := (1 <<< 14) ||| (0x3FFF &&& repeated_bytes % 65536)
      let b ← idx data repeat_start
      pure (beBytes16 header ++ [b], repeated_bytes)
    else pure ([], 0)
  else do
    let data_bytes ←
      if found_repeat then
        if repeat_start < current_index then Except.error Fault.arithUnderflow
        else pure (repeat_start - current_index)
      else pure (max_data_bytes - max_data_bytes % 2)
    if data_bytes > 0 then do
      let payload ← slice data current_index data_bytes
      let header := (0 <<< 14) ||| (0x3FFF &&& data_bytes % 65536)
      pure (beBytes16 header ++ payload, data_bytes)
    else pure ([], 0)

/-- The `while` loop of `create_bcb_data`.  The loop guard is
`(max_len - compressed.len()) > 4 && current_index < data.len()`; the
subtraction is checked (`arithUnderflow` is the debug-build panic, proved
unreachable below).  A step that consumes no input appends nothing to the
output, so the Rust loop would repeat the identical iteration forever; this
is reported as `nonTermination`.  `fuel` bounds the number of iterations;
every surviving iteration consumes at least one input byte, so the budget
`data.length + 1` used by `create_bcb_data` never runs out (proved below). -/
def bcbLoop (fuel : Nat) (data : List Nat) (max_len current_index : Nat)
    (compressed : List Nat) (uncompressed_total : Nat) :
    Except Fault (Nat × List Nat) :=
  if max_len < compressed.length then .error .arithUnderflow
  else if max_len - compressed.length > 4 ∧ current_index < data.length then
    match next_bcb_block (max_len - compressed.length) current_index data with
    | .error e => .error e
    | .ok (block, uncompressed) =>
      if uncompressed = 0 then .error .nonTermination
      else
        match fuel with
        | 0 => .error .fuelExhausted
        | f + 1 =>
          bcbLoop f data max_len (current_index + uncompressed)
            (compressed ++ block) (uncompressed_total + uncompressed)
  else pure (uncompressed_total, compressed)

/-- Embedding of `create_bcb_data` from `src/bcb.rs`: compresses a prefix of `data` into
BCB blocks totalling at most `max_len` bytes, returning the number of
uncompressed bytes consumed and the compressed stream. -/
def create_bcb_data (data : List Nat) (max_len : Nat) :
    Except Fault (Nat × List Nat) :=
  bcbLoop (data.length + 1) data max_len 0 [] 0

/-- Embedding of `encrypt_data` from `src/bcb.rs`: XOR each byte with `key[key_index]`,
resetting `key_index` to 0 before use when it is out of range and
incrementing it afterwards (with no check after the final increment).
Returns the transformed buffer and the final key index. -/
def encrypt_data (key : List Nat) (data : List Nat) (key_index : Nat) :
    Except Fault (List Nat × Nat) :=
  match data with
  | [] => pure ([], key_index)
  | b :: rest => do
    let ki := if key_index ≥ key.length then 0 else key_index
    let k ← idx key ki
    let r ← encrypt_data key rest (ki + 1)
    pure ((b ^^^ k) :: r.1, r.2)

/-- Embedding of `encrypt_and_compress` from `src/bcb.rs`: reserve two bytes for the
first-block header when `is_first`, compress, prepend `[0x1A, 0x01]` when
`is_first`, then encrypt everything.  Returns (uncompressed bytes consumed,
encrypted packet, final key index). -/
def encrypt_and_compress (max_len : Nat) (data : List Nat) (key_index : Nat)
    (key : List Nat) (is_first : Bool) : Except Fault (Nat × List Nat × Nat) := do
  let max_len ←
    if is_first then
      if max_len < 2 then Except.error Fault.arithUnderflow else pure (max_len - 2)
    else pure max_len
  match create_bcb_data data max_len with
  | .error e => .error e
  | .ok (uncompressed_length, compressed) =>
    let compressed := if is_first then [0x1A, 0x01] ++ compressed else compressed
    match encrypt_data key compressed key_index with
    | .error e => .error e
    | .ok (encrypted, kf) => pure (uncompressed_length, encrypted, kf)

/-- Worker for `bcbDecompress`; `fuel` only bounds the recursion depth and
`stream.length` is always enough (every block consumes at least two stream
bytes). -/
def bcbDecompressGo (fuel : Nat) (stream : List Nat) : Option (List Nat) :=
  match fuel, stream with
  | _, [] => some []
  | 0, _ => none
  | f + 1, h1 :: h2 :: rest =>
    let header := h1 * 256 + h2
    let mode := header >>> 14
    let len := header &&& 0x3FFF
    if mode = 0 then
      if len ≤ rest.length then
        (bcbDecompressGo f (rest.drop len)).map (fun tl => rest.take len ++ tl)
      else none
    else if mode = 1 then
      match rest with
      | [] => none
      | b :: rest2 => (bcbDecompressGo f rest2).map (fun tl => List.replicate len b ++ tl)
    else none
  | _, [_] => none

/-- Decompression as the specification defines it: a 16-bit big-endian
header whose top two bits are the mode and bottom 14 bits the length; a
`NoRepeats` (mode 0) block is followed by `length` literal bytes, a
`Repeating` (mode 1) block by a single byte expanded `length` times.
Returns `none` on a truncated or unknown-mode stream. -/
def bcbDecompress (stream : List Nat) : Option (List Nat) :=
  bcbDecompressGo stream.length stream




theorem exceptBindOk {e a b : Type} (x : a) (f : a → Except e b) :
    Except.ok x >>= f = f x := rfl

theorem idx_replicate {n i : Nat} (b : Nat) (h : i < n) :
    idx (List.replicate n b) i = .ok b := by
  simp [idx, h, List.getElem_replicate]

theorem innerScan_replicate (n b rs : Nat) (ys : List Nat) (found : Bool) (re : Nat)
    (hrs : rs < n) (hys : ∀ y ∈ ys, y < n) :
    innerScan (List.replicate n b) rs ys found re =
      pure (ys.foldl
        (fun s y => if y % 2 == 1 && (s.1 || y - rs + 1 ≥ 4) then (true, y) else s)
        (found, re)) := by
  induction ys generalizing found re with
  | nil => simp [innerScan]
  | cons y rest ih =>
    have hy : y < n := hys y (by simp)
    have hrest : ∀ z ∈ rest, z < n := fun z hz => hys z (by simp [hz])
    simp only [innerScan, idx_replicate b hy, idx_replicate b hrs, exceptBindOk,
      beq_self_eq_true, if_true, List.foldl_cons]
    by_cases hc : (y % 2 == 1 && (found || decide (y - rs + 1 ≥ 4))) = true
    · simp only [hc, if_true]
      rw [ih true y hrest]
    · simp only [Bool.not_eq_true] at hc
      simp only [hc, Bool.false_eq_true, if_false]
      rw [ih found re hrest]

theorem innerScan_rep600 :
    innerScan (List.replicate 600 170) 0 (List.range' 1 599) false 0 =
      pure (true, 599) := by
  rw [innerScan_replicate 600 170 0 (List.range' 1 599) false 0 (by omega)
    (by intro y hy; have := List.mem_range'.1 hy; omega)]
  decide

theorem outerScan_cons (data : List Nat) (x : Nat) (rest : List Nat) :
    outerScan data (x :: rest) = (do
      let a ← idx data x
      let b ← idx data (x + 1)
      if a == b then
        let max_repeat_index := min (x + 0x1000) data.length
        let fr ← innerScan data x (List.range' (x + 1) (max_repeat_index - (x + 1))) false 0
        if fr.1 then pure (true, x, fr.2)
        else outerScan data rest
      else outerScan data rest) := rfl

theorem outerScan_rep600 :
    outerScan (List.replicate 600 170) (List.range' 0 124) =
      pure (true, 0, 599) := by
  have h1 : List.range' 0 124 = 0 :: List.range' 1 123 := by decide
  rw [h1, outerScan_cons, idx_replicate 170 (by omega), idx_replicate 170 (by omega),
    exceptBindOk, exceptBindOk]
  norm_num [List.length_replicate, innerScan_rep600, exceptBindOk]


theorem next_bcb_block_rep600 :
    next_bcb_block 126 0 (List.replicate 600 170) = .ok ([66, 88, 170], 600) := by
  simp only [next_bcb_block, List.length_replicate]
  rw [if_neg (by norm_num), if_pos (by norm_num : ((126:Nat) - 2) ⊓ 600 > 0 + 1),
    show ((126:Nat) - 2) ⊓ 600 - 0 = 124 by norm_num, outerScan_rep600, pure_bind]
  decide

theorem bcbLoop_enter (f : Nat) (data : List Nat) (max_len current : Nat)
    (compressed : List Nat) (tot : Nat) (blk : List Nat) (u : Nat)
    (h1 : ¬ max_len < compressed.length)
    (h2 : max_len - compressed.length > 4 ∧ current < data.length)
    (h3 : next_bcb_block (max_len - compressed.length) current data = .ok (blk, u))
    (h4 : u ≠ 0) :
    bcbLoop (f + 1) data max_len current compressed tot =
      bcbLoop f data max_len (current + u) (compressed ++ blk) (tot + u) := by
  rw [bcbLoop, if_neg h1, if_pos h2, h3]
  simp [h4]

theorem bcbLoop_exit (f : Nat) (data : List Nat) (max_len current : Nat)
    (compressed : List Nat) (tot : Nat)
    (h1 : ¬ max_len < compressed.length)
    (h2 : ¬ (max_len - compressed.length > 4 ∧ current < data.length)) :
    bcbLoop f data max_len current compressed tot = .ok (tot, compressed) := by
  rw [bcbLoop, if_neg h1, if_neg h2]
  rfl

theorem create_bcb_data_rep600 :
    create_bcb_data (List.replicate 600 170) 126 = .ok (600, [66, 88, 170]) := by
  have e1 := bcbLoop_enter 600 (List.replicate 600 170) 126 0 [] 0 [66, 88, 170] 600
    (by simp) (by simp) (by simpa using next_bcb_block_rep600) (by omega)
  have e2 := bcbLoop_exit 600 (List.replicate 600 170) 126 (0 + 600) ([] ++ [66, 88, 170])
    (0 + 600) (by simp) (by simp)
  simp only [create_bcb_data, List.length_replicate]
  rw [e1, e2]
  norm_num

theorem encrypt_and_compress_rep600 :
    encrypt_and_compress 128 (List.replicate 600 170) 0 [71, 69, 72, 69, 73, 77] true =
      .ok (600, [93, 68, 10, 29, 227], 5) := by
  simp only [encrypt_and_compress, if_true]
  rw [if_neg (by norm_num), pure_bind, show (128:Nat) - 2 = 126 by norm_num,
    create_bcb_data_rep600]
  decide


theorem bcbLoop_ok_length_le (fuel : Nat) (data : List Nat)
    (max_len current_index : Nat) (compressed : List Nat)
    (uncompressed_total n : Nat) (out : List Nat)
    (h : bcbLoop fuel data max_len current_index compressed uncompressed_total =
      .ok (n, out)) :
    out.length ≤ max_len := by
  induction fuel generalizing current_index compressed uncompressed_total n out with
  | zero =>
    rw [bcbLoop] at h
    by_cases h1 : max_len < compressed.length
    · rw [if_pos h1] at h; exact absurd h (by simp)
    · rw [if_neg h1] at h
      by_cases h2 : max_len - compressed.length > 4 ∧ current_index < data.length
      · rw [if_pos h2] at h
        cases hnb : next_bcb_block (max_len - compressed.length) current_index data with
        | error e => rw [hnb] at h; exact absurd h (by simp)
        | ok p =>
          obtain ⟨blk, u⟩ := p
          rw [hnb] at h
          by_cases hu : u = 0
          · simp [hu] at h
          · simp [hu] at h
      · rw [if_neg h2] at h
        have hout : compressed = out := by
          have hp : uncompressed_total = n ∧ compressed = out := by
            simpa [pure, Except.pure, Prod.ext_iff] using h
          exact hp.2
        rw [← hout]
        omega
  | succ f ih =>
    rw [bcbLoop] at h
    by_cases h1 : max_len < compressed.length
    · rw [if_pos h1] at h; exact absurd h (by simp)
    · rw [if_neg h1] at h
      by_cases h2 : max_len - compressed.length > 4 ∧ current_index < data.length
      · rw [if_pos h2] at h
        cases hnb : next_bcb_block (max_len - compressed.length) current_index data with
        | error e => rw [hnb] at h; exact absurd h (by simp)
        | ok p =>
          obtain ⟨blk, u⟩ := p
          rw [hnb] at h
          by_cases hu : u = 0
          · simp [hu] at h
          · simp only [hu, if_false] at h
            exact ih _ _ _ _ _ h
      · rw [if_neg h2] at h
        have hout : compressed = out := by
          have hp : uncompressed_total = n ∧ compressed = out := by
            simpa [pure, Except.pure, Prod.ext_iff] using h
          exact hp.2
        rw [← hout]
        omega

theorem encrypt_data_ok (key : List Nat) (hkey : key ≠ []) (data : List Nat) :
    ∀ key_index : Nat,
    ∃ out kf, encrypt_data key data key_index = .ok (out, kf) ∧
      (data = [] → kf = key_index) ∧
      (data ≠ [] → 1 ≤ kf ∧ kf ≤ key.length) := by
  induction data with
  | nil => exact fun ki => ⟨[], ki, rfl, fun _ => rfl, fun hne => absurd rfl hne⟩
  | cons b rest ih =>
    intro ki
    have hk : 0 < key.length := List.length_pos.mpr hkey
    have hki : (if ki ≥ key.length then 0 else ki) < key.length := by
      split_ifs <;> omega
    obtain ⟨out, kf, heq, he, hne⟩ := ih ((if ki ≥ key.length then 0 else ki) + 1)
    refine ⟨(b ^^^ key.get ⟨if ki ≥ key.length then 0 else ki, hki⟩) :: out, kf, ?_, ?_, ?_⟩
    · simp only [encrypt_data, idx, hki, dif_pos]
      rw [exceptBindOk, heq, exceptBindOk]
      rfl
    · intro hc; exact absurd hc (by simp)
    · intro _
      by_cases hr : rest = []
      · have := he hr
        omega
      · exact hne hr

end Bcb


/-- C3 counterexample: `create_bcb_data` does not terminate normally for
every input with `max ≥ 5`.  On `[0, 1]` with `max = 5` the repeat scan
reads `data[2]`, one past the end of the buffer (an out-of-bounds panic in
Rust), and on the single-byte input `[7]` the loop makes no progress and
repeats the identical iteration forever. -/
theorem C3_counterexample :
    Bcb.create_bcb_data [0, 1] 5 = .error .indexOutOfBounds ∧
    Bcb.create_bcb_data [7] 100 = .error .nonTermination := by
  constructor <;> decide

/-- C3 (amended): whenever `create_bcb_data` returns normally, the
compressed output it returns is at most `max_len` bytes long; normal
termination itself fails for some inputs with `max ≥ 5` (see the
counterexample), because the repeat scan can index one past the end of the
input and a one-byte remainder makes the loop spin without progress. -/
theorem C3_create_bcb_data_output_le_max (data : List Nat) (max_len n : Nat)
    (out : List Nat)
    (h : Bcb.create_bcb_data data max_len = .ok (n, out)) :
    out.length ≤ max_len :=
  Bcb.bcbLoop_ok_length_le (data.length + 1) data max_len 0 [] 0 n out h

/-- Witness for C3: a run of four equal bytes compresses to a three-byte
repeating block, and the theorem bounds its length by `max = 100`. -/
theorem C3_witness :
    Bcb.create_bcb_data [170, 170, 170, 170] 100 = .ok (4, [64, 4, 170]) ∧
    ([64, 4, 170] : List Nat).length ≤ 100 :=
  ⟨by decide, C3_create_bcb_data_output_le_max [170, 170, 170, 170] 100 4
    [64, 4, 170] (by decide)⟩

/-- C2: compress-then-decompress is NOT the identity on the consumed prefix.
On `x = [5,5,5,5,1,2,3,4,5,6,7,8,9,9,9,9]` with `max = 100` the compressor
returns normally, consuming all 16 bytes, but the second block is a literal
block whose header claims 8 bytes while its payload is `data[4..8] =
[1,2,3,4]` (the code slices `&data[current_index..data_bytes]`, treating
the block length as an end index), so the emitted stream is malformed and
does not decompress to `x[..16]`. -/
theorem C2_literal_block_corrupts_roundtrip :
    Bcb.create_bcb_data [5, 5, 5, 5, 1, 2, 3, 4, 5, 6, 7, 8, 9, 9, 9, 9] 100 =
      .ok (16, [64, 4, 5, 0, 8, 1, 2, 3, 4, 64, 4, 9]) ∧
    Bcb.bcbDecompress [64, 4, 5, 0, 8, 1, 2, 3, 4, 64, 4, 9] ≠
      some (List.take 16 [5, 5, 5, 5, 1, 2, 3, 4, 5, 6, 7, 8, 9, 9, 9, 9]) := by
  constructor <;> decide

/-- C8 counterexample: after `encrypt_data` returns, the key index can
equal `|key|`, violating the claimed invariant `key_index < |key|`: with
the one-byte key `[71]` and one data byte, the final index is 1. -/
theorem C8_counterexample :
    Bcb.encrypt_data [71] [0] 0 = .ok ([71], 1) ∧
    ¬ (1 < ([71] : List Nat).length) := by
  constructor <;> decide

/-- C8 (amended): for a non-empty key and a non-empty buffer,
`encrypt_data` succeeds and its final key index lies in `[1, |key|]` — the
index is only renormalised into `[0, |key|)` before the next use, not after
the final increment, so `key_index = |key|` is reachable. -/
theorem C8_encrypt_data_final_key_index (key data : List Nat) (key_index : Nat)
    (hkey : key ≠ []) (hdata : data ≠ []) :
    ∃ out kf, Bcb.encrypt_data key data key_index = .ok (out, kf) ∧
      1 ≤ kf ∧ kf ≤ key.length := by
  obtain ⟨out, kf, heq, _, hne⟩ := Bcb.encrypt_data_ok key hkey data key_index
  exact ⟨out, kf, heq, (hne hdata).1, (hne hdata).2⟩

/-- Witness for C8: encrypting the five-byte first download packet with the
six-byte ME7 key leaves the key index in `[1, 6]`. -/
theorem C8_witness :
    ∃ out kf, Bcb.encrypt_data [71, 69, 72, 69, 73, 77] [26, 1, 66, 88, 170] 0 =
      .ok (out, kf) ∧ 1 ≤ kf ∧ kf ≤ ([71, 69, 72, 69, 73, 77] : List Nat).length :=
  C8_encrypt_data_final_key_index [71, 69, 72, 69, 73, 77] [26, 1, 66, 88, 170] 0
    (by decide) (by decide)

/-- C7 counterexample: compressing and encrypting the 600-byte all-`0xAA`
buffer as the first download block with `max_block = 128` and key
`"GEHEIM"` (bytes `[71,69,72,69,73,77]`) leaves the key index at 5, not 3:
five bytes (the `[0x1A, 0x01]` prefix plus the three block bytes) pass
through the cipher. -/
theorem C7_counterexample :
    Bcb.encrypt_and_compress 128 (List.replicate 600 170) 0
      [71, 69, 72, 69, 73, 77] true = .ok (600, [93, 68, 10, 29, 227], 5) ∧
    (5 : Nat) ≠ 3 :=
  ⟨Bcb.encrypt_and_compress_rep600, by decide⟩

/-- C7 (amended): the 600-byte all-`0xAA` buffer compresses (with
`max_len = 128 - 2 = 126`) to a single repeating block with header `0x4258`
(bytes `[66, 88]`) and payload byte `0xAA`, consuming all 600 bytes; the
first TransferData packet prefixes `[0x1A, 0x01]` before encryption, and
XOR-encrypting the resulting five bytes with `"GEHEIM"` from `key_index = 0`
leaves `key_index = 5` (not 3). -/
theorem C7_first_block_roundtrip :
    Bcb.create_bcb_data (List.replicate 600 170) 126 = .ok (600, [66, 88, 170]) ∧
    Bcb.encrypt_and_compress 128 (List.replicate 600 170) 0
      [71, 69, 72, 69, 73, 77] true = .ok (600, [93, 68, 10, 29, 227], 5) :=
  ⟨Bcb.create_bcb_data_rep600, Bcb.encrypt_and_compress_rep600⟩

namespace Kwp

/-- Decode/encode faults of `src/kwp.rs` (`enum Error`), plus `panicked`
for Rust panics (`unwrap` of a missing address in `to_bytes`). -/
inductive KwpError where
  | notEnoughData
  | invalidChecksum
  | invalidService
  | panicked
  deriving DecidableEq, Repr

/-- The byte values of the request identifiers (`ServiceId` in
`src/kwp.rs`); `from_repr` is membership in this table. -/
def isServiceIdByte (b : Nat) : Bool :=
  [0x01, 0x02, 0x03, 0x04, 0x05, 0x06, 0x07, 0x08, 0x09,
   0x10, 0x11, 0x12, 0x13, 0x14, 0x17, 0x18, 0x1A,
   0x20, 0x21, 0x22, 0x23, 0x26, 0x27, 0x2C, 0x2E, 0x2F,
   0x30, 0x31, 0x32, 0x33, 0x34, 0x35, 0x36, 0x37, 0x38, 0x39, 0x3A, 0x3B,
   0x3D, 0x3E, 0x3F, 0x80, 0x81, 0x82, 0x83].contains b

/-- The byte values of the response identifiers (`ServiceResponse` in
`src/kwp.rs`): `0x7F` (negative response) plus each request's response
byte. -/
def isServiceResponseByte (b : Nat) : Bool :=
  [0x7F, 0x41, 0x42, 0x43, 0x44, 0x45, 0x46, 0x47, 0x48, 0x49,
   0x50, 0x51, 0x52, 0x53, 0x54, 0x57, 0x58, 0x5A,
   0x60, 0x61, 0x62, 0x63, 0x66, 0x67, 0x6C, 0x6E, 0x6F,
   0x70, 0x71, 0x72, 0x73, 0x74, 0x75, 0x76, 0x77, 0x78, 0x79, 0x7A, 0x7B,
   0x7D, 0x7E, 0xFF, 0xC0, 0xC1, 0xC2, 0xC3].contains b

/-- The `Service` enum of `src/kwp.rs`: a request or response identifier, carried as its byte value
(the Rust enums are fieldless `repr(u8)` enums; validity is established at
construction through the tables above). -/
inductive Service where
  | query (b : Nat)
  | response (b : Nat)
  deriving DecidableEq, Repr

/-- Conversion `Service as u8` (`impl Into<u8> for Service`). -/
def Service.toByte : Service → Nat
  | .query b => b
  | .response b => b

/-- The service decoding used by `from_bytes`: request identifiers are
tried first, then response identifiers. -/
def serviceFromByte (b : Nat) : Except KwpError Service :=
  if isServiceIdByte b then .ok (.query b)
  else if isServiceResponseByte b then .ok (.response b)
  else .error .invalidService

/-- The `AddressMode` enum from `src/kwp.rs`. -/
inductive AddressMode where
  | none
  | carb
  | physical
  | functional
  deriving DecidableEq, Repr

/-- Conversion `AddressMode as u8`: the mode occupies the top two bits. -/
def AddressMode.toByte : AddressMode → Nat
  | .none => 0x00
  | .carb => 0x40
  | .physical => 0x80
  | .functional => 0xC0

/-- Embedding of `decode_format`: the top two bits select the address mode, the bottom
six are the inline length (`none` meaning a length byte follows).  For a
byte (`< 256`) the shifted value is already 0..3, so the
`panic!("impossible value")` arm of the Rust `match` is unreachable; the
`% 4` makes the same total function explicit. -/
def decode_format (byte : Nat) : AddressMode × Option Nat :=
  let length := byte &&& 0b00111111
  ((match (byte >>> 6) % 4 with
    | 0 => AddressMode.none
    | 1 => AddressMode.carb
    | 2 => AddressMode.physical
    | _ => AddressMode.functional),
   if length = 0 then none else some length)

/-- The raw KWP2000 frame of `src/kwp.rs`. -/
structure RawMessage where
  mode : AddressMode
  target : Option Nat
  source : Option Nat
  service : Service
  data : List Nat
  deriving DecidableEq, Repr

/-- Embedding of `RawMessage::to_bytes`.  Mirrors the source exactly: when
`1 + data.len()` exceeds `SHORT_DATA_LENGTH = 63` the format byte is NOT
pushed — only the separate length byte is (the encoding defect established
below); `target.unwrap()`/`source.unwrap()` panic when the addresses are
absent; the checksum is the 8-bit wrapping sum of all preceding bytes. -/
def RawMessage.to_bytes (m : RawMessage) : Except KwpError (List Nat) := do
  let length := 1 + m.data.length
  let head : List Nat × Option Nat :=
    if length ≤ 63 then ([m.mode.toByte + length], none)
    else ([], some (length % 256))
  let addrs ←
    match m.mode with
    | AddressMode.none => pure ([] : List Nat)
    | _ =>
      match m.target, m.source with
      | some t, some s => pure [t, s]
      | _, _ => Except.error KwpError.panicked
  let lengthByte := match head.2 with | none => ([] : List Nat) | some l => [l]
  let bytes := head.1 ++ addrs ++ lengthByte ++ [m.service.toByte] ++ m.data
  pure (bytes ++ [bytes.sum % 256])

/-- Read one byte from the stream. -/
def read1 (s : List Nat) : Except KwpError (Nat × List Nat) :=
  match s with
  | [] => .error .notEnoughData
  | b :: rest => .ok (b, rest)

/-- Read exactly `n` bytes from the stream.  (`Read::read` fills at most
`n` bytes and the source checks no count; on the complete frames
considered by the theorems below every read is satisfied in full, and a
read past the end of the stream surfaces as `notEnoughData`.) -/
def readN (s : List Nat) (n : Nat) : Except KwpError (List Nat × List Nat) :=
  if n ≤ s.length then .ok (s.take n, s.drop n) else .error .notEnoughData

/-- Embedding of `RawMessage::from_bytes`, over a byte-list stream: format byte, then
optional address pair, then optional explicit length byte (when the inline
length is zero), then service byte, then `length - 1` payload bytes, then
the checksum byte, which is recomputed over format, addresses, the length
byte when present, service and payload.  Returns the decoded message and
the unconsumed remainder of the stream. -/
def RawMessage.from_bytes (input : List Nat) :
    Except KwpError (RawMessage × List Nat) := do
  let r0 ← read1 input
  let format := r0.1
  let md := decode_format format
  let mode := md.1
  let hlength := md.2
  let addrRead ←
    match mode with
    | AddressMode.none => pure (((none : Option Nat), (none : Option Nat)), r0.2)
    | _ => do
      let ra ← readN r0.2 2
      match ra.1 with
      | [t, s] => pure ((some t, some s), ra.2)
      | _ => Except.error KwpError.notEnoughData
  let target_addr := addrRead.1.1
  let source_addr := addrRead.1.2
  let lenRead ←
    match hlength with
    | some l => pure (l, addrRead.2)
    | none => read1 addrRead.2
  let length := lenRead.1
  let svcRead ← read1 lenRead.2
  let service ← serviceFromByte svcRead.1
  let dataRead ←
    if length > 1 then readN svcRead.2 (length - 1)
    else pure (([] : List Nat), svcRead.2)
  let data := dataRead.1
  let crcRead ← read1 dataRead.2
  let calc_crc :=
    (format + (match target_addr with | some t => t | none => 0)
      + (match source_addr with | some s => s | none => 0)
      + (match hlength with | some _ => 0 | none => length)
      + svcRead.1 + data.sum) % 256
  if crcRead.1 ≠ calc_crc then Except.error KwpError.invalidChecksum
  else
    pure ({ mode := mode, target := target_addr, source := source_addr,
            service := service, data := data }, crcRead.2)

end Kwp

/-- C4: decode-then-encode is NOT the identity on grammatical frames.  The
68-byte frame below is grammatical (format byte `0x00` with zero inline
length, explicit length byte `0x41 = 65`, service `0x10`, 64 payload
bytes, valid checksum `0x51 = 81`) and decodes successfully, but
`to_bytes` omits the format byte entirely whenever payload+service exceeds
63 bytes — its output begins with the length byte — so re-encoding yields
a 67-byte sequence and loses the frame's format byte. -/
theorem C4_long_frame_roundtrip_fails :
    Kwp.RawMessage.from_bytes ([0, 65, 16] ++ List.replicate 64 0 ++ [81]) =
      .ok ({ mode := .none, target := none, source := none,
             service := .query 16, data := List.replicate 64 0 }, []) ∧
    Kwp.RawMessage.to_bytes
      { mode := .none, target := none, source := none,
        service := .query 16, data := List.replicate 64 0 } =
      .ok ([65, 16] ++ List.replicate 64 0 ++ [81]) ∧
    ([65, 16] ++ List.replicate 64 0 ++ [81] : List Nat) ≠
      [0, 65, 16] ++ List.replicate 64 0 ++ [81] := by
  refine ⟨?_, ?_, ?_⟩ <;> decide

namespace K2

/-- The byte values of the request identifiers (`ServiceId` in
`src/kwp2000/constants.rs`; the table is identical to the one in
`src/kwp.rs`). -/
def isServiceIdByte (b : Nat) : Bool :=
  [0x01, 0x02, 0x03, 0x04, 0x05, 0x06, 0x07, 0x08, 0x09,
   0x10, 0x11, 0x12, 0x13, 0x14, 0x17, 0x18, 0x1A,
   0x20, 0x21, 0x22, 0x23, 0x26, 0x27, 0x2C, 0x2E, 0x2F,
   0x30, 0x31, 0x32, 0x33, 0x34, 0x35, 0x36, 0x37, 0x38, 0x39, 0x3A, 0x3B,
   0x3D, 0x3E, 0x3F, 0x80, 0x81, 0x82, 0x83].contains b

/-- The byte values of `ServiceError` in `src/kwp2000/constants.rs`. -/
def isServiceErrorByte (b : Nat) : Bool :=
  [0x11, 0x22, 0x33, 0x35, 0x36, 0x37,
   0x21, 0x23, 0x31, 0x78, 0x91,
   0x10, 0x12, 0x40, 0x41, 0x42, 0x43, 0x50, 0x51, 0x52, 0x53,
   0x71, 0x72, 0x74, 0x75, 0x76, 0x77, 0x79, 0x80, 0x90].contains b

/-- The `TimingParameter` enum from `src/kwp2000/constants.rs`. -/
inductive TimingParameter where
  | limits
  | defaults
  | read
  | set
  deriving DecidableEq, Repr

def TimingParameter.toByte : TimingParameter → Nat
  | .limits => 0
  | .defaults => 1
  | .read => 2
  | .set => 3

def TimingParameter.fromRepr (b : Nat) : Option TimingParameter :=
  if b = 0 then some .limits
  else if b = 1 then some .defaults
  else if b = 2 then some .read
  else if b = 3 then some .set
  else none

/-- The `DiagnosticMode` enum from `src/kwp2000/constants.rs`. -/
inductive DiagnosticMode where
  | obd
  | endOfLineVW
  | endOfLineBosch
  | programming
  | developer
  | diagnostics
  deriving DecidableEq, Repr

def DiagnosticMode.toByte : DiagnosticMode → Nat
  | .obd => 0x81
  | .endOfLineVW => 0x83
  | .endOfLineBosch => 0x84
  | .programming => 0x85
  | .developer => 0x86
  | .diagnostics => 0x89

def DiagnosticMode.fromRepr (b : Nat) : Option DiagnosticMode :=
  if b = 0x81 then some .obd
  else if b = 0x83 then some .endOfLineVW
  else if b = 0x84 then some .endOfLineBosch
  else if b = 0x85 then some .programming
  else if b = 0x86 then some .developer
  else if b = 0x89 then some .diagnostics
  else none

/-- The `SecurityLevel` enum from `src/kwp2000/constants.rs`: seed levels are the
odd bytes 1,3,5,7 and key levels the even bytes 2,4,6,8. -/
inductive SecurityLevel where
  | seed1
  | seed2
  | seed3
  | seed4
  | key1
  | key2
  | key3
  | key4
  deriving DecidableEq, Repr

def SecurityLevel.fromRepr (b : Nat) : Option SecurityLevel :=
  if b = 1 then some .seed1
  else if b = 3 then some .seed2
  else if b = 5 then some .seed3
  else if b = 7 then some .seed4
  else if b = 2 then some .key1
  else if b = 4 then some .key2
  else if b = 6 then some .key3
  else if b = 8 then some .key4
  else none

/-- The `CompressionFormat` enum from `src/kwp2000/constants.rs`. -/
inductive CompressionFormat where
  | uncompressed
  | bosch
  | hitachi
  | marelli
  | lucas
  deriving DecidableEq, Repr

def CompressionFormat.toByte : CompressionFormat → Nat
  | .uncompressed => 0x00
  | .bosch => 0x10
  | .hitachi => 0x20
  | .marelli => 0x30
  | .lucas => 0x40

/-- The `EncryptionFormat` enum from `src/kwp2000/constants.rs`. -/
inductive EncryptionFormat where
  | unencrypted
  | bosch
  | hitachi
  | marelli
  | lucas
  deriving DecidableEq, Repr

def EncryptionFormat.toByte : EncryptionFormat → Nat
  | .unencrypted => 0x00
  | .bosch => 0x01
  | .hitachi => 0x02
  | .marelli => 0x03
  | .lucas => 0x04

/-- Embedding of `data_format_byte` from `src/kwp2000/constants.rs`. -/
def data_format_byte (compression : CompressionFormat) (encryption : EncryptionFormat) : Nat :=
  compression.toByte ||| encryption.toByte

/-- The `ReadMode` enum from `src/kwp2000/constants.rs`. -/
inductive ReadMode where
  | single
  | slow
  | medium
  | fast
  | stop
  deriving DecidableEq, Repr

def ReadMode.toByte : ReadMode → Nat
  | .single => 0x01
  | .slow => 0x02
  | .medium => 0x03
  | .fast => 0x04
  | .stop => 0x05

/-- The `Service` enum from `src/kwp2000/constants.rs`, carried as its byte value. -/
inductive Service where
  | query (b : Nat)
  | response (b : Nat)
  deriving DecidableEq, Repr

/-- Modelled from the spec: the raw frame type of the missing file
`src/kwp2000/raw_message.rs` (declared by `mod.rs`, used by `message.rs`
and `response.rs` but not present under `src/`), following the frame model
of spec §3: addressing mode, optional target/source, service, payload.
Only `service` and `data` are consulted by the code embedded here. -/
structure RawMessage where
  mode : Kwp.AddressMode
  target : Option Nat
  source : Option Nat
  service : Service
  data : List Nat
  deriving DecidableEq, Repr

/-- Embedding of `baud_rate_from_byte` from `src/kwp2000/mod.rs`: exponent in the top
three (of the low eight) bits, scalar in the low five;
`rate = (1 << exp) * (z + 32) * 6400 / 32`. -/
def baud_rate_from_byte (byte : Nat) : Nat :=
  let upper := (byte >>> 5) &&& 7
  let lower := byte &&& 0x1F
  let pow := 1 <<< upper
  pow * (lower + 32) * 6400 / 32

/-- Embedding of `baud_rate_to_byte` from `src/kwp2000/mod.rs`.  The Rust source
compares `f64` values; every float that arises there is a small dyadic
rational (an integer divided by a power of two, well inside the 53-bit
mantissa), represented exactly in `f64`, so exact rational arithmetic over
`ℚ` reproduces the same comparisons.  The loop `for exp in (0..=7).rev()`
visits `[7, 6, 5, 4, 3, 2, 1, 0]` in order; the fold state is
`(best_scalar_distance, best_exp, best_exp_result)`.  The final unsigned
subtraction `base / best_exp_result - 32` is on `Nat` (it cannot underflow
for the rates the theorems evaluate). -/
def baud_rate_to_byte (baud_rate : Nat) : Nat :=
  let base := baud_rate * 32 % 2 ^ 32 / 6400
  let st := [7, 6, 5, 4, 3, 2, 1, 0].foldl
    (fun (st : ℚ × Nat × Nat) exp =>
      let exp_result := 1 <<< exp
      if exp_result < base then
        let scalar : ℚ := (base : ℚ) / (exp_result : ℚ)
        if scalar < 64 ∧ scalar > 32 then
          let scalar_distance := scalar - (⌊scalar⌋ : ℚ)
          if scalar_distance < st.1 then (scalar_distance, exp, exp_result)
          else st
        else st
      else st)
    ((1 : ℚ), 0, 1)
  let z := base / st.2.2 - 32
  ((st.2.1 &&& 0x7) <<< 5) ||| (z &&& 0x1F)

/-- Embedding of `security_key_from_seed` from `src/kwp2000/mod.rs`: the seed bytes are
interpreted big-endian as a `u32`, then five feedback rounds are applied
(the `for _ in 0..LOOP_COUNT` loop is a fold over `List.range 5`). -/
def security_key_from_seed (seed : Nat × Nat × Nat × Nat) : Nat :=
  let key := ((seed.1 * 256 + seed.2.1) * 256 + seed.2.2.1) * 256 + seed.2.2.2
  (List.range 5).foldl
    (fun key _ =>
      if key ≥ 0x80000000 then
        (((key <<< 1) % 2 ^ 32) ||| 0x00000001) ^^^ 0x5FBD5DBD
      else (key <<< 1) % 2 ^ 32)
    key

/-- One round of the security-key transform as the specification words it:
if the value is at least `0x80000000` then shift left by one, set the
lowest bit and XOR with `0x5FBD5DBD`, otherwise shift left by one (on
`u32`). -/
def specSecurityRound (v : Nat) : Nat :=
  if 0x80000000 ≤ v then (((v <<< 1) % 2 ^ 32) ||| 1) ^^^ 0x5FBD5DBD
  else (v <<< 1) % 2 ^ 32

/-- Big-endian bytes of a `u32` (`u32::to_be_bytes`). -/
def u32BeBytes (n : Nat) : List Nat :=
  [n / 2 ^ 24 % 256, n / 2 ^ 16 % 256, n / 2 ^ 8 % 256, n % 256]

/-- The 24-bit big-endian address encoding used by `message.rs`: bytes 1..4
of `u32::to_be_bytes` (the top byte is discarded). -/
def u24BeBytes (n : Nat) : List Nat :=
  [n / 2 ^ 16 % 256, n / 2 ^ 8 % 256, n % 256]

/-- The `TransferType` enum from `src/kwp2000/message.rs`. -/
inductive TransferType where
  | download
  | upload
  deriving DecidableEq, Repr

/-- The `Message` enum from `src/kwp2000/message.rs`.  Enum-typed fields keep their
source types; `SendData` is the variant `client.rs` sends for
`TransferData` but which is absent from the provided `message.rs`
(modelled from the spec, see `Message.raw`). -/
inductive Message where
  | StartDiagnosticSession (mode : DiagnosticMode) (baud : Option Nat)
  | StopCommunication
  | RequestSecuritySeed
  | ClearLocalIdentifier (id : Nat)
  | ReadLocalIdentifier (id : Nat) (mode : ReadMode) (count : Nat)
  | WriteLocalIdentifier (id : Nat) (items : List Nat)
  | DefineLocalIdentifierAddress (id : Nat) (size : Nat) (address : Nat)
  | SendSecurityKey (key : Nat)
  | TesterPresent (respond : Bool)
  | StopDiagnosticSession
  | ReadMemoryByAddress (address : Nat) (size : Nat) (mode : Option ReadMode)
      (maxResponseCount : Option Nat)
  | RequestDataTransfer (transferType : TransferType) (address : Nat) (size : Nat)
      (encryption : EncryptionFormat) (compression : CompressionFormat)
  | RequestData
  | GetCurrentTiming
  | GetDefaultTiming
  | GetTimingLimits
  | ChangeTimingParameters (p2min p2max p3min p3max p4min : Nat)
  | SendData (data : List Nat)
  deriving DecidableEq, Repr

/-- Embedding of `Message::raw` from `src/kwp2000/message.rs`: each message maps to one
`(service, payload)` pair.  `RawMessage::new_query` lives in the missing
`raw_message.rs`; modelled from the spec (§4.E): addressing mode defaults
to `None` with no addresses, and the payload is carried unchanged.  The
`SendData` arm is modelled from the spec (§4.H "Send TransferData(block)"):
service `TransferData` with the block as payload. -/
def Message.raw : Message → RawMessage
  | .ChangeTimingParameters p2min p2max p3min p3max p4min =>
    { mode := .none, target := none, source := none,
      service := .query 0x83,
      data := [TimingParameter.set.toByte, p2min, p2max, p3min, p3max, p4min] }
  | .GetCurrentTiming =>
    { mode := .none, target := none, source := none,
      service := .query 0x83, data := [TimingParameter.read.toByte] }
  | .GetTimingLimits =>
    { mode := .none, target := none, source := none,
      service := .query 0x83, data := [TimingParameter.limits.toByte] }
  | .GetDefaultTiming =>
    { mode := .none, target := none, source := none,
      service := .query 0x83, data := [TimingParameter.defaults.toByte] }
  | .RequestData =>
    { mode := .none, target := none, source := none,
      service := .query 0x36, data := [] }
  | .RequestDataTransfer transferType address size encryption compression =>
    { mode := .none, target := none, source := none,
      service := .query (match transferType with
        | TransferType.download => 0x34
        | TransferType.upload => 0x35),
      data := u24BeBytes address ++ [data_format_byte compression encryption]
        ++ u24BeBytes size }
  | .ReadMemoryByAddress address size mode maxResponseCount =>
    { mode := .none, target := none, source := none,
      service := .query 0x23,
      data := u24BeBytes address ++ [size]
        ++ (match mode with | some m => [m.toByte] | none => [])
        ++ (match maxResponseCount with | some c => [c] | none => []) }
  | .StopDiagnosticSession =>
    { mode := .none, target := none, source := none,
      service := .query 0x20, data := [] }
  | .StartDiagnosticSession dmode baud =>
    { mode := .none, target := none, source := none,
      service := .query 0x10,
      data := [dmode.toByte]
        ++ (match baud with | some b => [baud_rate_to_byte b] | none => []) }
  | .RequestSecuritySeed =>
    { mode := .none, target := none, source := none,
      service := .query 0x27, data := [0x01] }
  | .ClearLocalIdentifier id =>
    { mode := .none, target := none, source := none,
      service := .query 0x2C, data := [id, 0x04] }
  | .ReadLocalIdentifier id rmode count =>
    { mode := .none, target := none, source := none,
      service := .query 0x21, data := [id, rmode.toByte, count] }
  | .WriteLocalIdentifier id items =>
    { mode := .none, target := none, source := none,
      service := .query 0x3B, data := id :: items }
  | .DefineLocalIdentifierAddress id size address =>
    { mode := .none, target := none, source := none,
      service := .query 0x2C,
      data := [id, 0x03, 0x01, size] ++ u24BeBytes address }
  | .SendSecurityKey key =>
    { mode := .none, target := none, source := none,
      service := .query 0x27, data := 0x02 :: u32BeBytes key }
  | .TesterPresent respond =>
    { mode := .none, target := none, source := none,
      service := .query 0x3E, data := [if respond then 0x01 else 0x02] }
  | .StopCommunication =>
    { mode := .none, target := none, source := none,
      service := .query 0x82, data := [] }
  | .SendData data =>
    { mode := .none, target := none, source := none,
      service := .query 0x36, data := data }

end K2

/-- A fold whose step ignores the list elements is an iterated function
application. -/
theorem foldl_const_iterate {α : Type} (f : Nat → Nat) (l : List α) (init : Nat) :
    l.foldl (fun k _ => f k) init = f^[l.length] init := by
  induction l generalizing init with
  | nil => rfl
  | cons a rest ih => simp [List.foldl_cons, Function.iterate_succ_apply, ih]

/-- C5: the security key is exactly five applications of the documented
round (shift left; if the old value had its top bit set, also set the low
bit and XOR with `0x5FBD5DBD`) to the big-endian interpretation of the
seed; the all-zero seed yields key 0; and `SendSecurityKey` carries the
payload `[0x02, k0, k1, k2, k3]` with the key big-endian, under service
`SecurityAccess` (`0x27`). -/
theorem C5_security_key_five_rounds :
    (∀ b0 b1 b2 b3 : Nat,
      K2.security_key_from_seed (b0, b1, b2, b3) =
        K2.specSecurityRound^[5] (((b0 * 256 + b1) * 256 + b2) * 256 + b3)) ∧
    K2.security_key_from_seed (0, 0, 0, 0) = 0 ∧
    (∀ k : Nat, K2.Message.raw (.SendSecurityKey k) =
      { mode := .none, target := none, source := none,
        service := .query 0x27,
        data := [0x02, k / 2 ^ 24 % 256, k / 2 ^ 16 % 256, k / 2 ^ 8 % 256, k % 256] }) := by
  refine ⟨?_, by decide, fun k => rfl⟩
  intro b0 b1 b2 b3
  simp only [K2.security_key_from_seed]
  have hfun : (fun (key : Nat) (x : Nat) =>
      if key ≥ 0x80000000 then (((key <<< 1) % 2 ^ 32) ||| 0x00000001) ^^^ 0x5FBD5DBD
      else (key <<< 1) % 2 ^ 32) = fun k (x : Nat) => K2.specSecurityRound k := by
    funext k x
    simp [K2.specSecurityRound, ge_iff_le]
  rw [hfun, foldl_const_iterate K2.specSecurityRound (List.range 5)]
  simp

/-- C9: the two rates named by the specification survive the
byte-encoding round trip exactly: `baud_rate_to_byte 10400 = 0x14` decodes
back to 10400 and `baud_rate_to_byte 38400 = 0x50` decodes back to
38400. -/
theorem C9_baud_roundtrip_10400_38400 :
    K2.baud_rate_from_byte (K2.baud_rate_to_byte 10400) = 10400 ∧
    K2.baud_rate_from_byte (K2.baud_rate_to_byte 38400) = 38400 := by
  have h1 : K2.baud_rate_to_byte 10400 = 20 := by
    simp only [K2.baud_rate_to_byte, List.foldl]
    norm_num [Nat.shiftLeft_eq, Int.fract]
    decide
  have h2 : K2.baud_rate_to_byte 38400 = 80 := by
    simp only [K2.baud_rate_to_byte, List.foldl]
    norm_num [Nat.shiftLeft_eq, Int.fract]
    decide
  rw [h1, h2]
  constructor <;> decide

namespace K2

/-- The `ProcessError` struct from `src/kwp2000/response.rs`: a negative-response
payload, fields carried as their byte values (validated on parse). -/
structure ProcessError where
  error : Nat
  service : Nat
  deriving DecidableEq, Repr

/-- The `Response` enum from `src/kwp2000/response.rs`. -/
inductive Response where
  | memoryAddressRead (address : Nat) (data : List Nat)
  | diagnosticSessionStopped
  | communicationStopped
  | echo (raw : RawMessage)
  | error (e : ProcessError)
  | localIdentifierDefined (id : Nat)
  | localIdentifierRead (id : Nat) (data : List Nat)
  | localIdentifierWritten (id : Nat)
  | securityAccessGranted (level : SecurityLevel)
  | securityAccessSeed (level : SecurityLevel) (seed : List Nat)
  | startedDiagnosticMode (mode : DiagnosticMode) (baud : Option Nat)
  | stillProcessing (service : Nat)
  | testerPresent
  | dataTransfer (data : List Nat)
  | readyForMoreData
  | uploadConfirmation (maxBlock : Nat)
  | downloadConfirmation (maxBlock : Nat)
  | timingParameters (kind : TimingParameter) (p2min p2max p3min p3max p4min : Nat)
  | timingRestoredToDefault
  | timingSet
  deriving DecidableEq, Repr

/-- The error type threaded through the kwp2000 layer (`crate::Error`,
whose defining file is not under `src/`; the variants are the ones the
embedded code constructs or matches on), plus `panicked` for Rust panics
(out-of-bounds indexing, slicing or `unwrap`). -/
inductive Err where
  | notEnoughData
  | invalidService
  | invalidServiceError
  | unexpectedValue
  | notImplemented
  | unexpectedResponse (r : Response)
  | securityTimeout
  | ioTimeout
  | bcb (f : Bcb.Fault)
  | panicked
  deriving DecidableEq, Repr

/-- Checked indexing into a payload: Rust `data[i]` panics when out of
bounds. -/
def idxP (data : List Nat) (i : Nat) : Except Err Nat :=
  if h : i < data.length then .ok data[i] else .error .panicked

/-- Embedding of `ProcessError::from_bytes`: reads `bytes[0]` and `bytes[1]` with no
length check (a panic on payloads shorter than two bytes), validating each
byte against the `ServiceId` / `ServiceError` tables. -/
def ProcessError.from_bytes (bytes : List Nat) : Except Err ProcessError := do
  let b0 ← idxP bytes 0
  let service ← if isServiceIdByte b0 then pure b0 else Except.error Err.invalidService
  let b1 ← idxP bytes 1
  let error ← if isServiceErrorByte b1 then pure b1 else Except.error Err.invalidServiceError
  pure { error := error, service := service }

/-- Embedding of `from_raw` from `src/kwp2000/response.rs`.  Query frames are echoes;
response frames are dispatched on the service byte in the order of the Rust
`match` (the byte values are the `ServiceResponse` discriminants:
`0xC3 = AccessTimingParameter`, `0x63 = ReadMemoryByAddress`,
`0x7F = NegativeResponse`, `0x50 = StartDiagnosticSession`,
`0x61 = ReadDataByLocalIdentifier`, `0x7E = TesterPresent`,
`0x67 = SecurityAccess`, `0x6C = DynamicallyDefineLocalIdentifier`,
`0x7B = WriteDataByLocalIdentifier`, `0xC2 = StopCommunication`,
`0x60 = StopDiagnosticSession`, `0x75 = RequestUpload`,
`0x74 = RequestDownload`, `0x76 = TransferData`); every other response
byte falls to the `dbg!`-and-`NotImplemented` arm. -/
def from_raw (message : RawMessage) : Except Err Response :=
  match message.service with
  | .query _ => .ok (.echo message)
  | .response s =>
    if s = 0xC3 then do
      -- `TimingParameter::from_repr(message.data[0]).unwrap()`
      let b0 ← idxP message.data 0
      let kind ← match TimingParameter.fromRepr b0 with
        | some t => pure t
        | none => Except.error Err.panicked
      if kind = TimingParameter.defaults then pure Response.timingRestoredToDefault
      else if kind = TimingParameter.set then pure Response.timingSet
      else do
        let p2min ← idxP message.data 1
        let p2max ← idxP message.data 2
        let p3min ← idxP message.data 3
        let p3max ← idxP message.data 4
        let p4min ← idxP message.data 5
        pure (Response.timingParameters kind p2min p2max p3min p3max p4min)
    else if s = 0x63 then
      -- the Rust loop `for i in 3..0` never executes (an empty range), so
      -- the address bytes remain zero and nothing is popped off the data
      pure (Response.memoryAddressRead 0 message.data)
    else if s = 0x7F then do
      let e ← ProcessError.from_bytes message.data
      if e.error = 0x78 then pure (Response.stillProcessing e.service)
      else pure (Response.error e)
    else if s = 0x50 then do
      let b0 ← idxP message.data 0
      let mode ← match DiagnosticMode.fromRepr b0 with
        | some m => pure m
        | none => Except.error Err.unexpectedValue
      pure (Response.startedDiagnosticMode mode
        ((message.data.get? 1).map baud_rate_from_byte))
    else if s = 0x61 then do
      let b0 ← idxP message.data 0
      -- `split_off(1)` panics when the payload is empty, but `data[0]`
      -- above has already panicked in that case
      pure (Response.localIdentifierRead b0 (message.data.drop 1))
    else if s = 0x7E then pure Response.testerPresent
    else if s = 0x67 then
      if message.data.length = 2 then do
        let b0 ← idxP message.data 0
        let lvl ← match SecurityLevel.fromRepr b0 with
          | some l => pure l
          | none => Except.error Err.unexpectedValue
        pure (Response.securityAccessGranted lvl)
      else do
        -- `message.data[1..]` panics on an empty payload
        let tail ← if 1 ≤ message.data.length then pure (message.data.drop 1)
          else Except.error Err.panicked
        if (match tail.max? with | some m => m == 0 | none => false) then do
          let b0 ← idxP message.data 0
          let lvl ← match SecurityLevel.fromRepr b0 with
            | some l => pure l
            | none => Except.error Err.unexpectedValue
          pure (Response.securityAccessGranted lvl)
        else do
          let b0 ← idxP message.data 0
          let lvl ← match SecurityLevel.fromRepr b0 with
            | some l => pure l
            | none => Except.error Err.unexpectedValue
          pure (Response.securityAccessSeed lvl (message.data.drop 1))
    else if s = 0x6C then do
      let b0 ← idxP message.data 0
      pure (Response.localIdentifierDefined b0)
    else if s = 0x7B then do
      let b0 ← idxP message.data 0
      pure (Response.localIdentifierWritten b0)
    else if s = 0xC2 then pure Response.communicationStopped
    else if s = 0x60 then pure Response.diagnosticSessionStopped
    else if s = 0x75 then do
      let b0 ← idxP message.data 0
      pure (Response.uploadConfirmation b0)
    else if s = 0x74 then do
      let b0 ← idxP message.data 0
      pure (Response.downloadConfirmation b0)
    else if s = 0x76 then
      if message.data.isEmpty then pure Response.readyForMoreData
      else pure (Response.dataTransfer message.data)
    else Except.error Err.notImplemented

/-- Whether a result is the embedding's marker for a Rust panic (as
opposed to a returned `Response` or library `Error` value). -/
def isPanic {α : Type} : Except Err α → Bool
  | .error .panicked => true
  | _ => false

/-- The payload conditions under which `from_raw` stays clear of its
panicking indexing paths, by response service byte: a negative response
needs two bytes; `AccessTimingParameter` needs a valid kind byte and, for
the `Limits`/`Read` kinds, six bytes; the services that read `data[0]`
(or slice `data[1..]`) need a non-empty payload; everything else is
unconditional. -/
def from_raw_payload_ok (s : Nat) (data : List Nat) : Bool :=
  if s = 0xC3 then
    match data.get? 0 with
    | none => false
    | some k =>
      (TimingParameter.fromRepr k).isSome &&
        (k == 1 || k == 3 || decide (6 ≤ data.length))
  else if s = 0x7F then decide (2 ≤ data.length)
  else if s = 0x50 ∨ s = 0x61 ∨ s = 0x67 ∨ s = 0x6C ∨ s = 0x7B ∨ s = 0x75 ∨ s = 0x74 then
    decide (1 ≤ data.length)
  else true

end K2


namespace K2

theorem idxP_ok (data : List Nat) (i : Nat) (hi : i < data.length) :
    idxP data i = .ok data[i] := dif_pos hi

theorem isPanic_bind_ok {β γ : Type} (x : Except Err β) (v : β) (f : β → Except Err γ)
    (hx : x = .ok v) (hf : isPanic (f v) = false) : isPanic (x >>= f) = false := by
  subst hx
  exact hf

theorem exceptBindErr {e a b : Type} (err : e) (f : a → Except e b) :
    (Except.error err >>= f : Except e b) = Except.error err := rfl

theorem isPanic_bind_err {β γ : Type} (x : Except Err β) (e : Err) (f : β → Except Err γ)
    (hx : x = .error e) (he : e ≠ .panicked) : isPanic (x >>= f) = false := by
  subst hx
  rw [exceptBindErr]
  cases e <;> first | rfl | exact absurd rfl he

theorem isPanic_pure {β : Type} (v : β) : isPanic (pure v : Except Err β) = false := rfl

theorem isPanic_bind {β γ : Type} (x : Except Err β) (f : β → Except Err γ)
    (hx : isPanic x = false) (hf : ∀ v, isPanic (f v) = false) :
    isPanic (x >>= f) = false := by
  cases x with
  | ok v => rw [Bcb.exceptBindOk]; exact hf v
  | error e =>
    rw [exceptBindErr]
    cases e <;> first | rfl | exact hx

theorem isPanic_processError (bytes : List Nat) (h : 2 ≤ bytes.length) :
    isPanic (ProcessError.from_bytes bytes) = false := by
  refine isPanic_bind_ok _ _ _ (idxP_ok bytes 0 (by omega)) ?_
  by_cases h0 : isServiceIdByte bytes[0]
  · rw [if_pos h0]
    refine isPanic_bind_ok _ _ _ rfl ?_
    refine isPanic_bind_ok _ _ _ (idxP_ok bytes 1 (by omega)) ?_
    by_cases h1 : isServiceErrorByte bytes[1]
    · rw [if_pos h1]
      rfl
    · rw [if_neg h1]
      rfl
  · rw [if_neg h0]
    exact isPanic_bind_err _ _ _ rfl (by simp)

/-- C10 (amended): `from_raw` is total — it returns a typed `Response` or
a library `Error` value, never panicking — for every known response
service byte whose payload satisfies the per-service shape conditions of
`from_raw_payload_ok`; outside those conditions it panics (see the
counterexample): a `NegativeResponse` payload shorter than 2 bytes, an
empty payload for the `StartDiagnosticSession`, `ReadDataByLocalIdentifier`,
`SecurityAccess`, `DynamicallyDefineLocalIdentifier`,
`WriteDataByLocalIdentifier`, `RequestUpload` or `RequestDownload`
responses, and an `AccessTimingParameter` payload that is empty, has an
unknown kind byte, or is shorter than 6 bytes for the parameter-carrying
kinds. -/
theorem C10_from_raw_total_when_payload_ok (mode : Kwp.AddressMode)
    (target source : Option Nat) (s : Nat) (data : List Nat)
    (h : from_raw_payload_ok s data = true) :
    isPanic (from_raw
      { mode := mode, target := target, source := source,
        service := .response s, data := data }) = false := by
  simp only [from_raw]
  by_cases h1 : s = 0xC3
  · rw [if_pos h1]
    rw [from_raw_payload_ok, if_pos h1] at h
    cases hd : data with
    | nil => rw [hd] at h; simp at h
    | cons k rest =>
      rw [hd] at h
      simp only [List.get?_cons_zero] at h
      obtain ⟨hsome, hk⟩ := (Bool.and_eq_true _ _).mp h
      obtain ⟨t, ht⟩ := Option.isSome_iff_exists.mp hsome
      refine isPanic_bind_ok _ k _ (idxP_ok _ 0 (by simp)) ?_
      rw [ht]
      refine isPanic_bind_ok _ t _ rfl ?_
      by_cases ht1 : t = TimingParameter.defaults
      · rw [if_pos ht1]; rfl
      · rw [if_neg ht1]
        by_cases ht2 : t = TimingParameter.set
        · rw [if_pos ht2]; rfl
        · rw [if_neg ht2]
          have hlen : 6 ≤ (k :: rest).length := by
            rcases (Bool.or_eq_true _ _).mp hk with hk1 | hk2
            · rcases (Bool.or_eq_true _ _).mp hk1 with hkk | hkk
              · exfalso
                have hke : k = 1 := by simpa using hkk
                rw [hke] at ht
                simp [TimingParameter.fromRepr] at ht
                exact ht1 ht.symm
              · exfalso
                have hke : k = 3 := by simpa using hkk
                rw [hke] at ht
                simp [TimingParameter.fromRepr] at ht
                exact ht2 ht.symm
            · simpa using hk2
          have hlr : 5 ≤ rest.length := by simpa using hlen
          refine isPanic_bind_ok _ _ _ (idxP_ok _ 1 (by simp; omega)) ?_
          refine isPanic_bind_ok _ _ _ (idxP_ok _ 2 (by simp; omega)) ?_
          refine isPanic_bind_ok _ _ _ (idxP_ok _ 3 (by simp; omega)) ?_
          refine isPanic_bind_ok _ _ _ (idxP_ok _ 4 (by simp; omega)) ?_
          refine isPanic_bind_ok _ _ _ (idxP_ok _ 5 (by simp; omega)) ?_
          rfl
  · rw [if_neg h1]
    by_cases h2 : s = 0x63
    · rw [if_pos h2]; rfl
    · rw [if_neg h2]
      by_cases h3 : s = 0x7F
      · rw [if_pos h3]
        have hlen : 2 ≤ data.length := by
          rw [from_raw_payload_ok, if_neg h1, if_pos h3] at h
          simpa using h
        refine isPanic_bind _ _ (isPanic_processError data hlen) ?_
        intro e
        split <;> rfl
      · rw [if_neg h3]
        by_cases h4 : s = 0x50
        · rw [if_pos h4]
          have hlen : 1 ≤ data.length := by
            rw [from_raw_payload_ok, if_neg h1, if_neg h3,
              if_pos (Or.inl h4)] at h
            simpa using h
          refine isPanic_bind_ok _ _ _ (idxP_ok _ 0 (by omega)) ?_
          cases DiagnosticMode.fromRepr data[0] <;> rfl
        · rw [if_neg h4]
          by_cases h5 : s = 0x61
          · rw [if_pos h5]
            have hlen : 1 ≤ data.length := by
              rw [from_raw_payload_ok, if_neg h1, if_neg h3,
                if_pos (Or.inr (Or.inl h5))] at h
              simpa using h
            refine isPanic_bind_ok _ _ _ (idxP_ok _ 0 (by omega)) ?_
            rfl
          · rw [if_neg h5]
            by_cases h6 : s = 0x7E
            · rw [if_pos h6]; rfl
            · rw [if_neg h6]
              by_cases h7 : s = 0x67
              · rw [if_pos h7]
                have hlen : 1 ≤ data.length := by
                  rw [from_raw_payload_ok, if_neg h1, if_neg h3,
                    if_pos (Or.inr (Or.inr (Or.inl h7)))] at h
                  simpa using h
                by_cases hl2 : data.length = 2
                · rw [if_pos hl2]
                  refine isPanic_bind_ok _ _ _ (idxP_ok _ 0 (by omega)) ?_
                  cases SecurityLevel.fromRepr data[0] <;> rfl
                · rw [if_neg hl2, if_pos hlen]
                  refine isPanic_bind_ok _ _ _ rfl ?_
                  split
                  · refine isPanic_bind_ok _ _ _ (idxP_ok _ 0 (by omega)) ?_
                    cases SecurityLevel.fromRepr data[0] <;> rfl
                  · refine isPanic_bind_ok _ _ _ (idxP_ok _ 0 (by omega)) ?_
                    cases SecurityLevel.fromRepr data[0] <;> rfl
              · rw [if_neg h7]
                by_cases h8 : s = 0x6C
                · rw [if_pos h8]
                  have hlen : 1 ≤ data.length := by
                    rw [from_raw_payload_ok, if_neg h1, if_neg h3,
                      if_pos (Or.inr (Or.inr (Or.inr (Or.inl h8))))] at h
                    simpa using h
                  refine isPanic_bind_ok _ _ _ (idxP_ok _ 0 (by omega)) ?_
                  rfl
                · rw [if_neg h8]
                  by_cases h9 : s = 0x7B
                  · rw [if_pos h9]
                    have hlen : 1 ≤ data.length := by
                      rw [from_raw_payload_ok, if_neg h1, if_neg h3,
                        if_pos (Or.inr (Or.inr (Or.inr (Or.inr (Or.inl h9)))))] at h
                      simpa using h
                    refine isPanic_bind_ok _ _ _ (idxP_ok _ 0 (by omega)) ?_
                    rfl
                  · rw [if_neg h9]
                    by_cases h10 : s = 0xC2
                    · rw [if_pos h10]; rfl
                    · rw [if_neg h10]
                      by_cases h11 : s = 0x60
                      · rw [if_pos h11]; rfl
                      · rw [if_neg h11]
                        by_cases h12 : s = 0x75
                        · rw [if_pos h12]
                          have hlen : 1 ≤ data.length := by
                            rw [from_raw_payload_ok, if_neg h1, if_neg h3,
                              if_pos (Or.inr (Or.inr (Or.inr (Or.inr (Or.inr (Or.inl h12))))))] at h
                            simpa using h
                          refine isPanic_bind_ok _ _ _ (idxP_ok _ 0 (by omega)) ?_
                          rfl
                        · rw [if_neg h12]
                          by_cases h13 : s = 0x74
                          · rw [if_pos h13]
                            have hlen : 1 ≤ data.length := by
                              rw [from_raw_payload_ok, if_neg h1, if_neg h3,
                                if_pos (Or.inr (Or.inr (Or.inr (Or.inr (Or.inr (Or.inr h13))))))] at h
                              simpa using h
                            refine isPanic_bind_ok _ _ _ (idxP_ok _ 0 (by omega)) ?_
                            rfl
                          · rw [if_neg h13]
                            by_cases h14 : s = 0x76
                            · rw [if_pos h14]
                              split <;> rfl
                            · rw [if_neg h14]
                              rfl

end K2

/-- C10 counterexample: a `NegativeResponse` (`0x7F`) frame with an empty
payload makes `from_raw` read `bytes[0]` out of bounds — a Rust panic,
rather than a returned typed `Response` or library `Error` value. -/
theorem C10_counterexample :
    K2.isPanic (K2.from_raw
      { mode := .none, target := none, source := none,
        service := .response 0x7F, data := [] }) = true := by
  decide

/-- Witness for C10: a two-byte negative-response payload (service `0x34`,
code `0x23`) satisfies the payload conditions and parses without
panicking. -/
theorem C10_witness :
    K2.isPanic (K2.from_raw
      { mode := .none, target := none, source := none,
        service := .response 0x7F, data := [0x34, 0x23] }) = false :=
  K2.C10_from_raw_total_when_payload_ok .none none none 0x7F [0x34, 0x23] (by decide)


namespace K2

/-- An observable interface operation of the session client: a blocking
`next_response()` read (recording the result it returned) or a
`send(Message)` write. -/
inductive Ev where
  | read (r : Except Err Response)
  | send (m : Message)
  deriving DecidableEq, Repr

/-- The check after the download loop of `write_data_bosch`: a read
timeout left in `response` is tolerated (`Ok(())`), any other error
propagates, and a leftover `Ok` response (after `break`) is dropped. -/
def loopFinal (r : Except Err Response) (log : List Ev) :
    Except Err Unit × List Ev :=
  match r with
  | .error Err.ioTimeout => (.ok (), log)
  | .error e => (.error e, log)
  | .ok _ => (.ok (), log)

/-- The send half of one `write_data_bosch` iteration: when all data has
been sent the loop breaks (`brk`); otherwise the next slice is compressed
and encrypted (`encrypt_and_compress(max_len, &data[sent_bytes..],
&mut enc_index, key, first)`), the `TransferData` block is sent, and the
loop continues (`next`) with the advanced counters. -/
def wdbSend (data key : List Nat) (enc_index max_len sent_bytes : Nat)
    (first : Bool) (log : List Ev)
    (next : Nat → Nat → Nat → List Ev → Except Err Unit × List Ev)
    (brk : List Ev → Except Err Unit × List Ev) :
    Except Err Unit × List Ev :=
  if sent_bytes ≥ data.length then brk log
  else
    match Bcb.encrypt_and_compress max_len (data.drop sent_bytes) enc_index key first with
    | .error e => (.error (.bcb e), log)
    | .ok (sent, transfer_block, enc2) =>
      next enc2 max_len (sent_bytes + sent)
        (log ++ [Ev.send (Message.SendData transfer_block)])

/-- The dispatch on the current message `m` in one `write_data_bosch`
iteration: `DownloadConfirmation(max)` updates `max_len` and sends the
first block, `ReadyForMoreData` sends the next block,
`Error(RoutineNotComplete, RequestDownload)` (`0x23`/`0x34`) just
continues, and anything else returns `UnexpectedResponse(m)`
immediately. -/
def wdbStep (data key : List Nat) (enc_index max_len sent_bytes : Nat)
    (m : Response) (log : List Ev)
    (next : Nat → Nat → Nat → List Ev → Except Err Unit × List Ev)
    (brk : List Ev → Except Err Unit × List Ev) :
    Except Err Unit × List Ev :=
  match m with
  | Response.downloadConfirmation mx =>
    wdbSend data key enc_index mx sent_bytes true log next brk
  | Response.readyForMoreData =>
    wdbSend data key enc_index max_len sent_bytes false log next brk
  | Response.error pe =>
    if pe.error = 0x23 ∧ pe.service = 0x34 then
      next enc_index max_len sent_bytes log
    else (.error (.unexpectedResponse (Response.error pe)), log)
  | other => (.error (.unexpectedResponse other), log)

/-- The `while let Ok(m) = response` loop of `write_data_bosch`
(`src/kwp2000/client.rs`).  The environment is the queue (`inbox`) of the
results the successive `next_response()` calls will return; a read from an
exhausted inbox behaves as a read timeout.  Each iteration first performs
the next blocking read (`response = self.interface.next_response()` is the
first statement of the loop body) and only afterwards examines `m` and
possibly compresses and sends a `TransferData` block.  When the read came
from the empty inbox, the next `while let` test fails on the timeout, at
which point `loopFinal` applies, so that exit is folded in directly. -/
def wdbLoop (data key : List Nat) :
    Nat → Nat → Nat → Except Err Response → List (Except Err Response) →
    List Ev → Except Err Unit × List Ev
  | _, _, _, Except.error Err.ioTimeout, _, log => (.ok (), log)
  | _, _, _, Except.error e, _, log => (.error e, log)
  | enc_index, max_len, sent_bytes, Except.ok m, [], log =>
    wdbStep data key enc_index max_len sent_bytes m
      (log ++ [Ev.read (Except.error Err.ioTimeout)])
      (fun _ _ _ log2 => loopFinal (Except.error Err.ioTimeout) log2)
      (fun log2 => loopFinal (Except.error Err.ioTimeout) log2)
  | enc_index, max_len, sent_bytes, Except.ok m, r :: rest, log =>
    wdbStep data key enc_index max_len sent_bytes m (log ++ [Ev.read r])
      (fun e mx s log2 => wdbLoop data key e mx s r rest log2)
      (fun log2 => loopFinal r log2)

/-- Unfolding rule for the send half of an iteration: when data remains
and compression succeeds, the block is sent and the loop continues with
the advanced counters. -/
theorem wdbSend_sends (data key : List Nat) (enc_index max_len sent_bytes : Nat)
    (first : Bool) (log : List Ev)
    (next : Nat → Nat → Nat → List Ev → Except Err Unit × List Ev)
    (brk : List Ev → Except Err Unit × List Ev)
    (sent : Nat) (blk : List Nat) (enc2 : Nat)
    (h1 : ¬ sent_bytes ≥ data.length)
    (h2 : Bcb.encrypt_and_compress max_len (data.drop sent_bytes) enc_index key first =
      .ok (sent, blk, enc2)) :
    wdbSend data key enc_index max_len sent_bytes first log next brk =
      next enc2 max_len (sent_bytes + sent) (log ++ [Ev.send (Message.SendData blk)]) := by
  rw [wdbSend, if_neg h1, h2]

/-- Embedding of `write_data_bosch` from `src/kwp2000/client.rs`, as a function of the
queued `next_response()` results: it sends the `RequestDownload` request
(Bosch compression and encryption, 24-bit address and size), performs the
initial blocking read, and enters the loop.  Returns the overall result
together with the chronological log of interface operations. -/
def write_data_bosch (address : Nat) (data key : List Nat)
    (inbox : List (Except Err Response)) : Except Err Unit × List Ev :=
  let log0 := [Ev.send (Message.RequestDataTransfer TransferType.download address
    data.length EncryptionFormat.bosch CompressionFormat.bosch)]
  match inbox with
  | [] => wdbLoop data key 0 0 0 (Except.error Err.ioTimeout) []
      (log0 ++ [Ev.read (Except.error Err.ioTimeout)])
  | r :: rest => wdbLoop data key 0 0 0 r rest (log0 ++ [Ev.read r])

end K2

/-- C1: the acknowledgement read precedes the send.  Driving
`write_data_bosch` with the response queue `[DownloadConfirmation(128),
timeout]` and 600 bytes of `0xAA`, the log shows that after reading the
`DownloadConfirmation` the client immediately performs another blocking
`next_response()` read — the first statement of the loop body — and only
afterwards sends the first `TransferData` block, so the read that should
acknowledge block 1 begins before block 1 has been written (and can only
time out); the function then returns `Ok(())` with the download
truncated after one block. -/
theorem C1_read_precedes_first_send :
    K2.write_data_bosch 0x800000 (List.replicate 600 170) [71, 69, 72, 69, 73, 77]
      [.ok (.downloadConfirmation 128), .error .ioTimeout] =
    (.ok (), [
      K2.Ev.send (K2.Message.RequestDataTransfer K2.TransferType.download 0x800000 600
        K2.EncryptionFormat.bosch K2.CompressionFormat.bosch),
      K2.Ev.read (.ok (K2.Response.downloadConfirmation 128)),
      K2.Ev.read (.error K2.Err.ioTimeout),
      K2.Ev.send (K2.Message.SendData [93, 68, 10, 29, 227])]) := by
  have step1 : K2.write_data_bosch 0x800000 (List.replicate 600 170)
      [71, 69, 72, 69, 73, 77]
      [.ok (.downloadConfirmation 128), .error .ioTimeout] =
      K2.wdbSend (List.replicate 600 170) [71, 69, 72, 69, 73, 77] 0 128 0 true
        [K2.Ev.send (K2.Message.RequestDataTransfer K2.TransferType.download 0x800000
            (List.replicate 600 170).length K2.EncryptionFormat.bosch
            K2.CompressionFormat.bosch),
          K2.Ev.read (.ok (K2.Response.downloadConfirmation 128)),
          K2.Ev.read (.error K2.Err.ioTimeout)]
        (fun e mx s log2 => K2.wdbLoop (List.replicate 600 170) [71, 69, 72, 69, 73, 77]
          e mx s (.error .ioTimeout) [] log2)
        (fun log2 => K2.loopFinal (.error .ioTimeout) log2) := rfl
  rw [step1, K2.wdbSend_sends _ _ _ _ _ _ _ _ _ 600 [93, 68, 10, 29, 227] 5
    (by simp [List.length_replicate])
    (by rw [List.drop_zero]; exact Bcb.encrypt_and_compress_rep600)]
  rfl

namespace KL

/-- An observable K-line operation: driving the break state high or low
(`set_high`/`set_low`), or delaying for a number of milliseconds. -/
inductive KEvent where
  | high
  | low
  | delayMs (ms : Nat)
  deriving DecidableEq, Repr

/-- Embedding of `KLine::bitbang` from `src/k_line.rs` as its trace of line operations:
for each bit index `n = 0..7` (LSB first, `(0..8).map(|n| ((1 << n) & byte) == 0)`)
the line is driven HIGH when bit `n` of `byte` is ZERO and LOW when it is
one, each drive followed by a delay of `1000 / baud` ms; afterwards the
line is set low to allow incoming data. -/
def bitbang (baud : Nat) (byte : Nat) : List KEvent :=
  let delay := 1000 / baud
  ((List.range 8).flatMap (fun n =>
    [if (1 <<< n) &&& byte == 0 then KEvent.high else KEvent.low,
      KEvent.delayMs delay]))
  ++ [KEvent.low]

/-- Embedding of `KLine::send_init_5baud` from `src/k_line.rs`: idle low for 300 ms,
start high for 200 ms, then bit-bang the address at 5 baud. -/
def send_init_5baud (address : Nat) : List KEvent :=
  [KEvent.low, KEvent.delayMs 300, KEvent.high, KEvent.delayMs 200]
    ++ bitbang 5 address

/-- The bit-bang trace as the claim words it: 8 bits LSB-first, one bit
per 200 ms, each bit value 1 driving the break state HIGH and each bit
value 0 driving it LOW, after which the line is released low. -/
def claimBitbangTrace (byte : Nat) : List KEvent :=
  ((List.range 8).flatMap (fun n =>
    [if byte.testBit n then KEvent.high else KEvent.low,
      KEvent.delayMs 200]))
  ++ [KEvent.low]

end KL

/-- C6 counterexample: for `init_address = 0x01` the first driven bit
value is 1, which the claim says drives the break HIGH, but the code's
trace drives it LOW (`((1 << n) & byte) == 0` selects `set_high`, the
inverted polarity). -/
theorem C6_counterexample :
    KL.bitbang 5 0x01 ≠ KL.claimBitbangTrace 0x01 := by decide

/-- C6 (amended): during the 5-baud wake-up the 8 bits of `init_address`
are transmitted LSB-first at one bit per 200 ms and the line is afterwards
released low, but with the polarity INVERTED with respect to the claim:
each bit value 0 drives the break state high and each bit value 1 drives
it low. -/
theorem C6_bitbang_lsb_first_inverted (address : Nat) :
    KL.send_init_5baud address =
      [KL.KEvent.low, KL.KEvent.delayMs 300, KL.KEvent.high, KL.KEvent.delayMs 200]
      ++ (((List.range 8).flatMap (fun n =>
        [if address.testBit n then KL.KEvent.low else KL.KEvent.high,
          KL.KEvent.delayMs 200])) ++ [KL.KEvent.low]) := by
  have hfun : ∀ n : Nat,
      (if (1 <<< n) &&& address == 0 then KL.KEvent.high else KL.KEvent.low) =
      (if address.testBit n then KL.KEvent.low else KL.KEvent.high) := by
    intro n
    have h1 : (1 <<< n) &&& address = 2 ^ n * (address.testBit n).toNat := by
      rw [Nat.one_shiftLeft, Nat.two_pow_and]
    have h2 : (0 : Nat) < 2 ^ n := Nat.pos_pow_of_pos n (by omega)
    cases hb : address.testBit n with
    | true => simp [h1, hb, h2.ne.symm]
    | false => simp [h1, hb]
  simp only [KL.send_init_5baud, KL.bitbang, hfun]

namespace Bcb

/-- Worker lemma: `idx` never reports fuel exhaustion. -/
theorem idx_ne_fuel (data : List Nat) (i : Nat) :
    idx data i ≠ .error .fuelExhausted := by
  unfold idx
  split <;> simp

/-- Worker lemma: `slice` never reports fuel exhaustion. -/
theorem slice_ne_fuel (data : List Nat) (a b : Nat) :
    slice data a b ≠ .error .fuelExhausted := by
  unfold slice
  split_ifs <;> simp

/-- Worker lemma: the inner scan never reports fuel exhaustion. -/
theorem innerScan_ne_fuel (data : List Nat) (rs : Nat) (ys : List Nat)
    (found : Bool) (re : Nat) :
    innerScan data rs ys found re ≠ .error .fuelExhausted := by
  induction ys generalizing found re with
  | nil => simp [innerScan, pure, Except.pure]
  | cons y rest ih =>
    rw [innerScan]
    cases ha : idx data rs with
    | error e =>
      rw [K2.exceptBindErr]
      intro hc
      exact idx_ne_fuel data rs (ha.trans (by injection hc with h; rw [h]))
    | ok a =>
      rw [Bcb.exceptBindOk]
      cases hb : idx data y with
      | error e =>
        rw [K2.exceptBindErr]
        intro hc
        exact idx_ne_fuel data y (hb.trans (by injection hc with h; rw [h]))
      | ok b =>
        rw [Bcb.exceptBindOk]
        split
        · split
          · exact ih true y
          · exact ih found re
        · simp [pure, Except.pure]

/-- Worker lemma: the outer scan never reports fuel exhaustion. -/
theorem outerScan_ne_fuel (data : List Nat) (xs : List Nat) :
    outerScan data xs ≠ .error .fuelExhausted := by
  induction xs with
  | nil => simp [outerScan, pure, Except.pure]
  | cons x rest ih =>
    rw [outerScan]
    dsimp only
    cases ha : idx data x with
    | error e =>
      rw [K2.exceptBindErr]
      intro hc
      exact idx_ne_fuel data x (ha.trans (by injection hc with h; rw [h]))
    | ok a =>
      rw [Bcb.exceptBindOk]
      cases hb : idx data (x + 1) with
      | error e =>
        rw [K2.exceptBindErr]
        intro hc
        exact idx_ne_fuel data (x + 1) (hb.trans (by injection hc with h; rw [h]))
      | ok b =>
        rw [Bcb.exceptBindOk]
        split
        · cases hfr : innerScan data x
            (List.range' (x + 1) (min (x + 0x1000) data.length - (x + 1))) false 0 with
          | error e =>
            rw [K2.exceptBindErr]
            intro hc
            exact innerScan_ne_fuel data x _ false 0 (hfr.trans (by injection hc with h; rw [h]))
          | ok fr =>
            rw [Bcb.exceptBindOk]
            split
            · simp [pure, Except.pure]
            · exact ih
        · exact ih

/-- Worker lemma: one compressor step never reports fuel exhaustion. -/
theorem next_bcb_block_ne_fuel (max_len current_index : Nat) (data : List Nat) :
    next_bcb_block max_len current_index data ≠ .error .fuelExhausted := by
  intro hc
  rw [next_bcb_block] at hc
  dsimp only at hc
  split at hc
  · simp at hc
  · split at hc
    · cases hs : outerScan data (List.range' current_index
          ((max_len - 2) ⊓ data.length - current_index)) with
      | error e =>
        rw [hs, K2.exceptBindErr] at hc
        exact outerScan_ne_fuel data _ (hs.trans (by injection hc with h; rw [h]))
      | ok scan =>
        rw [hs, Bcb.exceptBindOk] at hc
        split at hc
        · split at hc
          · cases hi : idx data scan.2.1 with
            | error e =>
              rw [hi, K2.exceptBindErr] at hc
              exact idx_ne_fuel data scan.2.1 (hi.trans (by injection hc with h; rw [h]))
            | ok b =>
              rw [hi, Bcb.exceptBindOk] at hc
              simp [pure, Except.pure] at hc
          · simp [pure, Except.pure] at hc
        · split at hc
          · split at hc
            · rw [K2.exceptBindErr] at hc
              simp at hc
            · rw [pure_bind] at hc
              split at hc
              · cases hp : slice data current_index (scan.2.1 - current_index) with
                | error e =>
                  rw [hp, K2.exceptBindErr] at hc
                  exact slice_ne_fuel data current_index (scan.2.1 - current_index)
                    (hp.trans (by injection hc with h; rw [h]))
                | ok payload =>
                  rw [hp, Bcb.exceptBindOk] at hc
                  simp [pure, Except.pure] at hc
              · simp [pure, Except.pure] at hc
          · rw [pure_bind] at hc
            split at hc
            · cases hp : slice data current_index
                  ((max_len - 2) ⊓ data.length - ((max_len - 2) ⊓ data.length) % 2) with
              | error e =>
                rw [hp, K2.exceptBindErr] at hc
                exact slice_ne_fuel data current_index _
                  (hp.trans (by injection hc with h; rw [h]))
              | ok payload =>
                rw [hp, Bcb.exceptBindOk] at hc
                simp [pure, Except.pure] at hc
            · simp [pure, Except.pure] at hc
    · rw [pure_bind] at hc
      split at hc
      · split at hc
        · cases hi : idx data (false, 0, 0).2.1 with
          | error e =>
            rw [hi, K2.exceptBindErr] at hc
            exact idx_ne_fuel data _ (hi.trans (by injection hc with h; rw [h]))
          | ok b =>
            rw [hi, Bcb.exceptBindOk] at hc
            simp [pure, Except.pure] at hc
        · simp [pure, Except.pure] at hc
      · split at hc
        · split at hc
          · rw [K2.exceptBindErr] at hc
            simp at hc
          · rw [pure_bind] at hc
            split at hc
            · cases hp : slice data current_index ((false, 0, 0).2.1 - current_index) with
              | error e =>
                rw [hp, K2.exceptBindErr] at hc
                exact slice_ne_fuel data current_index _
                  (hp.trans (by injection hc with h; rw [h]))
              | ok payload =>
                rw [hp, Bcb.exceptBindOk] at hc
                simp [pure, Except.pure] at hc
            · simp [pure, Except.pure] at hc
        · rw [pure_bind] at hc
          split at hc
          · cases hp : slice data current_index
                ((max_len - 2) ⊓ data.length - ((max_len - 2) ⊓ data.length) % 2) with
            | error e =>
              rw [hp, K2.exceptBindErr] at hc
              exact slice_ne_fuel data current_index _
                (hp.trans (by injection hc with h; rw [h]))
            | ok payload =>
              rw [hp, Bcb.exceptBindOk] at hc
              simp [pure, Except.pure] at hc
          · simp [pure, Except.pure] at hc

/-- The step budget of `bcbLoop` is sufficient whenever it exceeds the
remaining input (`data.length - current_index`): every iteration that does
not fault consumes at least one input byte, so with the budget
`data.length + 1` used by `create_bcb_data` the `fuelExhausted` branch is
unreachable — the embedding's fuel is an artifact-free bound, not a
behaviour of the model. -/
theorem bcbLoop_fuel_sufficient (fuel : Nat) (data : List Nat)
    (max_len current_index : Nat) (compressed : List Nat) (uncompressed_total : Nat)
    (hfuel : data.length < fuel + current_index) :
    bcbLoop fuel data max_len current_index compressed uncompressed_total ≠
      .error .fuelExhausted := by
  induction fuel generalizing current_index compressed uncompressed_total with
  | zero =>
    rw [bcbLoop]
    by_cases h1 : max_len < compressed.length
    · rw [if_pos h1]; simp
    · rw [if_neg h1]
      by_cases h2 : max_len - compressed.length > 4 ∧ current_index < data.length
      · exact absurd h2.2 (by omega)
      · rw [if_neg h2]; simp [pure, Except.pure]
  | succ f ih =>
    rw [bcbLoop]
    by_cases h1 : max_len < compressed.length
    · rw [if_pos h1]; simp
    · rw [if_neg h1]
      by_cases h2 : max_len - compressed.length > 4 ∧ current_index < data.length
      · rw [if_pos h2]
        cases hnb : next_bcb_block (max_len - compressed.length) current_index data with
        | error e =>
          intro hc
          have he : e = Bcb.Fault.fuelExhausted := by injection hc
          rw [he] at hnb
          exact next_bcb_block_ne_fuel _ _ _ hnb
        | ok p =>
          obtain ⟨blk, u⟩ := p
          by_cases hu : u = 0
          · simp [hu]
          · simp only [hu, if_false]
            exact ih (current_index + u) (compressed ++ blk) (uncompressed_total + u)
              (by omega)
      · rw [if_neg h2]; simp [pure, Except.pure]

/-- Instantiation of the sufficiency argument at `create_bcb_data`'s call
site: the compressor never reports fuel exhaustion. -/
theorem create_bcb_data_no_fuel (data : List Nat) (max_len : Nat) :
    create_bcb_data data max_len ≠ .error .fuelExhausted :=
  bcbLoop_fuel_sufficient (data.length + 1) data max_len 0 [] 0 (by omega)

end Bcb
